import Mathlib

/-!
Shallow embedding of the `wgpu_session` display-session manager
(`src/context.rs` and `src/main.rs`) together with proofs about the
spec's claims.  External kernel / GPU calls are modelled by explicit
oracle parameters recording whether each fallible call succeeds.
-/

namespace WgpuSession

/-! ## DRM data model (`src/context.rs`) -/

/-- A display mode as used by `setup_drm_resources`: width, height,
vertical refresh rate, and whether `ty()` contains `ModeType::DEFAULT`
(the preferred-mode flag).  Widths and heights are `u16` in DRM; areas
are computed in `u32`, where `u16 * u16` cannot overflow, so plain `Nat`
arithmetic is faithful. -/
structure DrmMode where
  display_width : Nat
  display_height : Nat
  vertical_refresh_rate : Nat
  ty_default : Bool
deriving DecidableEq

/-- A DRM connector: its id, whether `connection.is_connected()`, and its
supported mode list, in device order (`src/context.rs` lines 66–76). -/
structure Connector where
  connector_id : Nat
  connected : Bool
  modes : List DrmMode
deriving DecidableEq

/-- A DRM plane with its typed property list (name, value), as read by the
primary-plane scan in `setup_drm_resources` (lines 106–129). -/
structure Plane where
  id : Nat
  props : List (String × Nat)
deriving DecidableEq

/-- `width * height`, the `area` computed in the mode-selection loop
(`src/context.rs` line 89). -/
def modeArea (m : DrmMode) : Nat := m.display_width * m.display_height

/-- The mode-selection loop of `setup_drm_resources` (lines 79–96):
`best_mode`/`max_area` accumulator, break on the first `DEFAULT`-flagged
mode, otherwise keep the first mode strictly exceeding the running
maximum area. -/
def findBestMode : List DrmMode → Option DrmMode → Nat → Option DrmMode
  | [], best_mode, _ => best_mode
  | current_mode :: rest, best_mode, max_area =>
    if current_mode.ty_default then some current_mode
    else if modeArea current_mode > max_area then
      findBestMode rest (some current_mode) (modeArea current_mode)
    else
      findBestMode rest best_mode max_area

/-- Mode selection over a connector's mode list: the loop started with
`best_mode = None`, `max_area = 0`; `none` means the
`"No suitable mode found"` error. -/
def selectMode (modes : List DrmMode) : Option DrmMode :=
  findBestMode modes none 0

/-- Largest `modeArea` occurring in a list (`0` for the empty list):
the reference value the spec's "largest width × height product" talks
about. -/
def maxModeArea (ms : List DrmMode) : Nat :=
  ms.foldr (fun m a => max (modeArea m) a) 0

/-- Errors of context construction and the context operations, mirroring
the `anyhow` error messages in `src/context.rs`. -/
inductive CtxError
  | openFailed
  | setMasterFailed
  | atomicCapFailed
  | dropMasterFailed
  | noDisplayFound
  | noModeFound
  | noPrimaryPlaneFound
  | adapterRequestFailed
  | surfaceCreateFailed
  | deviceRequestFailed
  | surfaceConfigFailed
deriving DecidableEq

/-- Connector discovery (lines 66–76): first connector reporting
connected, in device order. -/
def findConnectedConnector (connectors : List Connector) : Option Connector :=
  connectors.find? (fun c => c.connected)

/-- Primary-plane discovery (lines 106–129): the first plane having a
property named `"type"` with value `1`. -/
def findPrimaryPlane (planes : List Plane) : Option Plane :=
  planes.find? (fun p => p.props.any (fun pr => pr.1 = "type" && pr.2 = 1))

/-- `setup_drm_resources` (lines 62–132): connector, then mode, then
primary plane, failing with the first error encountered. -/
def setup_drm_resources (connectors : List Connector) (planes : List Plane) :
    Except CtxError (Connector × DrmMode × Nat) :=
  match findConnectedConnector connectors with
  | none => .error .noDisplayFound
  | some connector =>
    match selectMode connector.modes with
    | none => .error .noModeFound
    | some mode =>
      match findPrimaryPlane planes with
      | none => .error .noPrimaryPlaneFound
      | some plane => .ok (connector, mode, plane.id)

/-! ### Mode-selection lemmas -/

theorem findBestMode_of_all_le (ms : List DrmMode) (best : Option DrmMode) (mx : Nat)
    (hdef : ∀ m ∈ ms, m.ty_default = false) (hle : ∀ m ∈ ms, modeArea m ≤ mx) :
    findBestMode ms best mx = best := by
  induction ms with
  | nil => rfl
  | cons m rest ih =>
    have hm := hdef m (List.mem_cons_self m rest)
    have hlem := hle m (List.mem_cons_self m rest)
    simp only [findBestMode, hm, if_false, Bool.false_eq_true]
    have : ¬ modeArea m > mx := not_lt.mpr hlem
    rw [if_neg this]
    exact ih (fun x hx => hdef x (List.mem_cons_of_mem m hx))
      (fun x hx => hle x (List.mem_cons_of_mem m hx))

theorem findBestMode_of_find_default (ms : List DrmMode) (best : Option DrmMode)
    (mx : Nat) (p : DrmMode) (h : ms.find? (fun m => m.ty_default) = some p) :
    findBestMode ms best mx = some p := by
  induction ms generalizing best mx with
  | nil => simp at h
  | cons m rest ih =>
    by_cases hm : m.ty_default = true
    · rw [List.find?_cons_of_pos _ hm] at h
      simp only [Option.some.injEq] at h
      subst h
      simp [findBestMode, hm]
    · have hm' : m.ty_default = false := by
        cases hdm : m.ty_default
        · rfl
        · exact absurd hdm hm
      rw [List.find?_cons_of_neg _ (by simp [hm'])] at h
      simp only [findBestMode, hm', Bool.false_eq_true, if_false]
      by_cases harea : modeArea m > mx
      · rw [if_pos harea]; exact ih _ _ h
      · rw [if_neg harea]; exact ih _ _ h

theorem modeArea_le_maxModeArea (ms : List DrmMode) (m : DrmMode) (h : m ∈ ms) :
    modeArea m ≤ maxModeArea ms := by
  induction ms with
  | nil => simp at h
  | cons x rest ih =>
    rcases List.mem_cons.mp h with hm | hm
    · subst hm; exact le_max_left _ _
    · exact le_trans (ih hm) (le_max_right _ _)

theorem maxModeArea_attained (ms : List DrmMode) :
    maxModeArea ms = 0 ∨ ∃ m ∈ ms, modeArea m = maxModeArea ms := by
  induction ms with
  | nil => exact Or.inl rfl
  | cons x rest ih =>
    rcases le_total (maxModeArea rest) (modeArea x) with hle | hle
    · right
      exact ⟨x, List.mem_cons_self x rest, (max_eq_left hle).symm⟩
    · rcases ih with h0 | ⟨m, hm, hq⟩
      · rcases Nat.eq_zero_or_pos (modeArea x) with hx0 | hxpos
        · left
          simp [maxModeArea] at *
          omega
        · right
          refine ⟨x, List.mem_cons_self x rest, ?_⟩
          have : maxModeArea (x :: rest) = max (modeArea x) (maxModeArea rest) := rfl
          omega
      · right
        refine ⟨m, List.mem_cons_of_mem x hm, ?_⟩
        have : maxModeArea (x :: rest) = max (modeArea x) (maxModeArea rest) := rfl
        omega

theorem findBestMode_eq_find_max (ms : List DrmMode) (best : Option DrmMode) (mx : Nat)
    (hdef : ∀ m ∈ ms, m.ty_default = false) (hlt : mx < maxModeArea ms) :
    findBestMode ms best mx =
      ms.find? (fun m => decide (modeArea m = maxModeArea ms)) := by
  induction ms generalizing best mx with
  | nil => simp [maxModeArea] at hlt
  | cons m rest ih =>
    have hm := hdef m (List.mem_cons_self m rest)
    have hdef' : ∀ x ∈ rest, x.ty_default = false :=
      fun x hx => hdef x (List.mem_cons_of_mem m hx)
    have hmax : maxModeArea (m :: rest) = max (modeArea m) (maxModeArea rest) := rfl
    simp only [findBestMode, hm, Bool.false_eq_true, if_false]
    by_cases harea : modeArea m > mx
    · rw [if_pos harea]
      rcases le_or_lt (maxModeArea rest) (modeArea m) with hcase | hcase
      · -- the head attains the maximum: the accumulator survives to the end
        have hameq : maxModeArea (m :: rest) = modeArea m := by
          rw [hmax]; exact max_eq_left hcase
        rw [List.find?_cons_of_pos _ (by simp [hameq])]
        exact findBestMode_of_all_le rest (some m) (modeArea m) hdef'
          (fun x hx => le_trans (modeArea_le_maxModeArea rest x hx) hcase)
      · -- the maximum lies strictly later
        have hameq : maxModeArea (m :: rest) = maxModeArea rest := by
          rw [hmax]; exact max_eq_right (le_of_lt hcase)
        have hne : modeArea m ≠ maxModeArea (m :: rest) := by omega
        rw [List.find?_cons_of_neg _ (by simp [hne]), hameq]
        exact ih (some m) (modeArea m) hdef' hcase
    · rw [if_neg harea]
      have hle : modeArea m ≤ mx := not_lt.mp harea
      have hcase : mx < maxModeArea rest := by
        rw [hmax] at hlt; omega
      have hameq : maxModeArea (m :: rest) = maxModeArea rest := by
        rw [hmax]; omega
      have hne : modeArea m ≠ maxModeArea (m :: rest) := by omega
      rw [List.find?_cons_of_neg _ (by simp [hne]), hameq]
      exact ih best mx hdef' hcase

/-! ### Claims C3 and C5: mode selection -/

/-- C3 (counterexample): the claim says `NoModeFound` happens exactly when
the mode list is empty, and that every non-empty list yields a selection.
The non-empty list `[⟨0, 0, 60, false⟩]` (a degenerate but representable
`u16 × u16` mode) has no preferred flag and zero area, so the loop's
strict `area > max_area` test never fires and selection returns nothing. -/
theorem C3_counterexample :
    selectMode [⟨0, 0, 60, false⟩] = none ∧
    ([(⟨0, 0, 60, false⟩ : DrmMode)] ≠ ([] : List DrmMode)) := by
  constructor
  · rfl
  · simp

/-- C3 (amended): mode selection fails with `NoModeFound` exactly when the
chosen connector's mode list contains no `DEFAULT`-flagged mode and no
mode of positive width × height area — in particular whenever the list is
empty; every list containing a flagged mode or a positive-area mode yields
a selection. -/
theorem C3_noModeFound_iff (ms : List DrmMode) :
    selectMode ms = none ↔ ∀ m ∈ ms, m.ty_default = false ∧ modeArea m = 0 := by
  constructor
  · intro h m hm
    by_contra hcon
    push_neg at hcon
    by_cases hdef : ∀ x ∈ ms, x.ty_default = false
    · -- no preferred mode anywhere, so some mode has positive area
      have hpos : 0 < modeArea m := by
        rcases Nat.eq_zero_or_pos (modeArea m) with h0 | h0
        · exact absurd (hcon (hdef m hm)) (by simp [h0])
        · exact h0
      have hmax : 0 < maxModeArea ms :=
        lt_of_lt_of_le hpos (modeArea_le_maxModeArea ms m hm)
      have := findBestMode_eq_find_max ms none 0 hdef hmax
      rw [selectMode, this] at h
      rcases maxModeArea_attained ms with h0 | ⟨x, hx, hq⟩
      · omega
      · have : ∃ y ∈ ms, (fun y => decide (modeArea y = maxModeArea ms)) y = true :=
          ⟨x, hx, by simp [hq]⟩
        rw [← List.find?_isSome] at this
        rw [h] at this
        simp at this
    · -- some preferred mode exists, so find? produces one and selection succeeds
      push_neg at hdef
      obtain ⟨x, hx, hxd⟩ := hdef
      have hxd' : x.ty_default = true := by
        cases hd : x.ty_default
        · exact absurd hd hxd
        · rfl
      have : ∃ y ∈ ms, (fun y => y.ty_default) y = true := ⟨x, hx, hxd'⟩
      rw [← List.find?_isSome] at this
      obtain ⟨p, hp⟩ := Option.isSome_iff_exists.mp this
      rw [selectMode, findBestMode_of_find_default ms none 0 p hp] at h
      simp at h
  · intro h
    exact findBestMode_of_all_le ms none 0 (fun m hm => (h m hm).1)
      (fun m hm => le_of_eq (h m hm).2)

/-- C5 (counterexample): the claim says that when no mode is flagged the
selector picks the mode with the largest width × height product.  In
`[⟨0, 5, 60, false⟩]` no mode is flagged and the (unique, hence largest-
product) mode has area `0 * 5 = 0`, but the selector picks nothing at all. -/
theorem C5_counterexample :
    (∀ m ∈ [(⟨0, 5, 60, false⟩ : DrmMode)], m.ty_default = false) ∧
    selectMode [⟨0, 5, 60, false⟩] = none := by
  constructor
  · intro m hm
    simp only [List.mem_singleton] at hm
    subst hm
    rfl
  · rfl

/-- C5 (amended): the selector picks the first `DEFAULT`-flagged mode in
encounter order regardless of its area; if no mode is flagged and some
mode has positive width × height product, it picks the first mode whose
product equals the maximum (first max wins); when no mode is flagged and
every product is zero it picks nothing.  The spec's two concrete examples
hold as stated. -/
theorem C5_mode_selection (ms : List DrmMode) :
    (∀ p, ms.find? (fun m => m.ty_default) = some p → selectMode ms = some p) ∧
    ((∀ m ∈ ms, m.ty_default = false) → 0 < maxModeArea ms →
      selectMode ms = ms.find? (fun m => decide (modeArea m = maxModeArea ms))) ∧
    selectMode [⟨800, 600, 60, false⟩, ⟨1920, 1080, 60, false⟩, ⟨640, 480, 60, true⟩]
      = some ⟨640, 480, 60, true⟩ ∧
    selectMode [⟨800, 600, 60, false⟩, ⟨1920, 1080, 60, false⟩]
      = some ⟨1920, 1080, 60, false⟩ := by
  refine ⟨?_, ?_, rfl, rfl⟩
  · intro p hp
    exact findBestMode_of_find_default ms none 0 p hp
  · intro hdef hpos
    exact findBestMode_eq_find_max ms none 0 hdef hpos

/-- C5 witness: the amended theorem applied to the spec's own no-preferred
example, discharging both hypotheses. -/
theorem C5_mode_selection_witness :
    selectMode [⟨800, 600, 60, false⟩, ⟨1920, 1080, 60, false⟩]
      = [(⟨800, 600, 60, false⟩ : DrmMode), ⟨1920, 1080, 60, false⟩].find?
          (fun m => decide (modeArea m =
            maxModeArea [⟨800, 600, 60, false⟩, ⟨1920, 1080, 60, false⟩])) :=
  (C5_mode_selection [⟨800, 600, 60, false⟩, ⟨1920, 1080, 60, false⟩]).2.1
    (by decide) (by decide)

/-! ## Display Context state (`src/context.rs`) -/

/-- The `WgpuState` bundle (lines 21–28): opaque handles for the surface,
instance, adapter, logical device and queue.  (`inst` stands in for the
source's `instance` field, a reserved word in Lean.) -/
structure WgpuState where
  surface : Nat
  inst : Nat
  adapter : Nat
  device : Nat
  queue : Nat
deriving DecidableEq

/-- `DrmState` (lines 12–19): the open device handle, the selected
connector / mode / plane, and the `has_master` ownership flag. -/
structure DrmState where
  device : Nat
  connector : Connector
  mode : DrmMode
  plane_id : Nat
  has_master : Bool
deriving DecidableEq

/-- `WgpuContext` (lines 30–33): the DRM state plus the optional wgpu
bundle, declared in this order in the source (`drm_state` first). -/
structure WgpuContext where
  drm_state : DrmState
  wgpu_state : Option WgpuState
deriving DecidableEq

/-- `setup_drm_master` (lines 47–54): `set_master` then
`set_client_capability(Atomic)`, failing with the first error; the two
booleans are the call outcomes. -/
def setup_drm_master (setOk atomicOk : Bool) : Except CtxError Unit :=
  if setOk then
    if atomicOk then .ok () else .error .atomicCapFailed
  else .error .setMasterFailed

/-- Outcomes of the external calls made by `create_wgpu_resources`
(lines 168–227), in source order, plus the handles produced on success. -/
structure WgpuOracle where
  adapterOk : Bool
  surfaceOk : Bool
  deviceOk : Bool
  configOk : Bool
  created : WgpuState
deriving DecidableEq

/-- `create_wgpu_resources` (lines 168–227): request adapter, create the
surface, request device/queue, get the default config; on full success
store the bundle in `wgpu_state`, on any failure return the error with
`wgpu_state` untouched. -/
def create_wgpu_resources (c : WgpuContext) (o : WgpuOracle) :
    Except CtxError Unit × WgpuContext :=
  if o.adapterOk then
    if o.surfaceOk then
      if o.deviceOk then
        if o.configOk then (.ok (), { c with wgpu_state := some o.created })
        else (.error .surfaceConfigFailed, c)
      else (.error .deviceRequestFailed, c)
    else (.error .surfaceCreateFailed, c)
  else (.error .adapterRequestFailed, c)

/-- `destroy_wgpu_resources` (lines 229–233): `self.wgpu_state.take()`. -/
def destroy_wgpu_resources (c : WgpuContext) : WgpuContext :=
  { c with wgpu_state := none }

/-- `suspend` (lines 235–245): destroy the wgpu resources, then — only if
master is held — call `drop_master` (outcome `releaseOk`) and clear
`has_master` on success; on failure the error propagates with the surface
already gone and `has_master` still set. -/
def suspend (c : WgpuContext) (releaseOk : Bool) :
    Except CtxError Unit × WgpuContext :=
  let c1 := destroy_wgpu_resources c
  if c1.drm_state.has_master then
    if releaseOk then
      (.ok (), { c1 with drm_state := { c1.drm_state with has_master := false } })
    else (.error .dropMasterFailed, c1)
  else (.ok (), c1)

/-- Outcomes of the external calls `resume` can make. -/
structure ResumeOracle where
  setMasterOk : Bool
  atomicOk : Bool
  wgpu : WgpuOracle
deriving DecidableEq

/-- `resume` (lines 247–260): re-claim master if not held (propagating a
`setup_drm_master` failure with the state unchanged), then rebuild the
wgpu resources if absent. -/
def resume (c : WgpuContext) (o : ResumeOracle) :
    Except CtxError Unit × WgpuContext :=
  let step1 : Except CtxError Unit × WgpuContext :=
    if c.drm_state.has_master then (.ok (), c)
    else
      match setup_drm_master o.setMasterOk o.atomicOk with
      | .ok _ => (.ok (), { c with drm_state := { c.drm_state with has_master := true } })
      | .error e => (.error e, c)
  match step1 with
  | (.error e, c1) => (.error e, c1)
  | (.ok _, c1) =>
    if c1.wgpu_state.isNone then create_wgpu_resources c1 o.wgpu
    else (.ok (), c1)

/-- `is_active` (lines 262–264). -/
def is_active (c : WgpuContext) : Bool :=
  c.drm_state.has_master && c.wgpu_state.isSome

/-- Errors `present` can return; the first two are the explicit
"Cannot present" checks the spec groups as `NotReady`. -/
inductive PresentError
  | notReadyNoSurface
  | notReadyNoMaster
  | swapchainAcquireFailed
deriving DecidableEq

/-- Whether a `present` error is one of the two explicit `NotReady`
checks. -/
def PresentError.isNotReady : PresentError → Bool
  | .notReadyNoSurface => true
  | .notReadyNoMaster => true
  | .swapchainAcquireFailed => false

/-- The backend calls `present` makes once both guards pass
(lines 276–307). -/
inductive BackendCall
  | getCurrentTexture
  | createView
  | createCommandEncoder
  | beginRenderPass
  | submit
  | presentFrame
deriving DecidableEq

/-- Result of one `present` call: the returned `Result`, the backend calls
made, and the context afterwards (`present` takes `&self`, so the state it
returns is the state it was given). -/
structure PresentOutcome where
  result : Except PresentError Unit
  backendCalls : List BackendCall
  post : WgpuContext

/-- `present` (lines 266–310): fail if the wgpu bundle is absent, then if
master is not held; otherwise acquire the next swapchain texture (outcome
`acquireOk`) and on success record and submit the single clear pass and
present the frame. -/
def present (c : WgpuContext) (acquireOk : Bool) : PresentOutcome :=
  match c.wgpu_state with
  | none => ⟨.error .notReadyNoSurface, [], c⟩
  | some _ =>
    if c.drm_state.has_master then
      if acquireOk then
        ⟨.ok (), [.getCurrentTexture, .createView, .createCommandEncoder,
                  .beginRenderPass, .submit, .presentFrame], c⟩
      else ⟨.error .swapchainAcquireFailed, [.getCurrentTexture], c⟩
    else ⟨.error .notReadyNoMaster, [], c⟩

/-- Whether a `present` outcome is a `NotReady` failure. -/
def presentNotReady (out : PresentOutcome) : Bool :=
  match out.result with
  | .error e => e.isNotReady
  | .ok _ => false

/-- Outcomes of the external calls `WgpuContext::new` makes. -/
structure NewOracle where
  openOk : Bool
  setMasterOk : Bool
  atomicOk : Bool
  connectors : List Connector
  planes : List Plane
  wgpu : WgpuOracle
  deviceFd : Nat
deriving DecidableEq

/-- `WgpuContext::new` (lines 145–166): open the device, become master,
select resources, build the context with `has_master = true` and no wgpu
state, then create the wgpu resources; any failure aborts construction
(the partially built context is dropped on the error path). -/
def new (o : NewOracle) : Except CtxError WgpuContext :=
  if o.openOk then
    match setup_drm_master o.setMasterOk o.atomicOk with
    | .error e => .error e
    | .ok _ =>
      match setup_drm_resources o.connectors o.planes with
      | .error e => .error e
      | .ok (connector, mode, plane_id) =>
        match create_wgpu_resources
            { drm_state :=
                { device := o.deviceFd, connector := connector, mode := mode,
                  plane_id := plane_id, has_master := true },
              wgpu_state := none } o.wgpu with
        | (.error e, _) => .error e
        | (.ok _, c1) => .ok c1
  else .error .openFailed

/-! ## Teardown traces (claim C1)

Rust drops the fields of a struct in declaration order.  `WgpuContext`
(lines 30–33) declares `drm_state` before `wgpu_state`, so dropping a
context first drops `DrmState` — whose `Drop` impl (lines 134–142)
releases master when `has_master` is set, after which its `device` field
closes the DRM fd — and only then drops the wgpu bundle.  `suspend` by
contrast destroys the wgpu resources before releasing master, and never
closes the device. -/

/-- The three teardown actions the spec orders. -/
inductive TeardownEvent
  | destroySurface
  | releaseMaster
  | closeDevice
deriving DecidableEq

/-- Teardown actions performed by `suspend` (lines 235–245), in program
order. -/
def suspendTeardownEvents (c : WgpuContext) : List TeardownEvent :=
  (if c.wgpu_state.isSome then [.destroySurface] else []) ++
  (if c.drm_state.has_master then [.releaseMaster] else [])

/-- Teardown actions performed when a `WgpuContext` is dropped, in the
order Rust executes them: `drm_state` first (its `Drop` impl releases
master if held, then its `device` field closes the fd), then
`wgpu_state`. -/
def dropTeardownEvents (c : WgpuContext) : List TeardownEvent :=
  ((if c.drm_state.has_master then [.releaseMaster] else []) ++ [.closeDevice]) ++
  (if c.wgpu_state.isSome then [.destroySurface] else [])

/-- The ordering rank required by the spec: surface destruction strictly
first, master release second, device close last. -/
def TeardownEvent.rank : TeardownEvent → Nat
  | .destroySurface => 0
  | .releaseMaster => 1
  | .closeDevice => 2

/-- A list of naturals is nondecreasing. -/
def ranksNondecreasing : List Nat → Bool
  | [] => true
  | [_] => true
  | a :: b :: rest => decide (a ≤ b) && ranksNondecreasing (b :: rest)

/-- Whether a teardown trace respects the spec's ordering
(surface before master release before device close). -/
def teardownOrdered (t : List TeardownEvent) : Bool :=
  ranksNondecreasing (t.map TeardownEvent.rank)

/-- A concrete context in the `Active` state (master held, wgpu bundle
present), as produced by a fully successful `new`. -/
def activeContext : WgpuContext :=
  { drm_state :=
      { device := 3,
        connector := ⟨5, true, [⟨1920, 1080, 60, false⟩]⟩,
        mode := ⟨1920, 1080, 60, false⟩,
        plane_id := 7,
        has_master := true },
    wgpu_state := some ⟨0, 1, 2, 3, 4⟩ }

/-! ### Claim C1: teardown ordering -/

/-- C1 (code evaluated at the failing input): dropping a context in the
`Active` state releases DRM master and closes the device *before* the GPU
surface is destroyed, because `drm_state` is declared (hence dropped)
before `wgpu_state`; this violates the claimed surface → release → close
order, which the `suspend` path does respect. -/
theorem C1_drop_order_violates_teardown_claim :
    dropTeardownEvents activeContext =
      [.releaseMaster, .closeDevice, .destroySurface] ∧
    teardownOrdered (dropTeardownEvents activeContext) = false ∧
    teardownOrdered (suspendTeardownEvents activeContext) = true ∧
    teardownOrdered [.destroySurface, .releaseMaster, .closeDevice] = true := by
  refine ⟨rfl, rfl, rfl, rfl⟩

/-! ### Claim C2: surface-only-with-ownership invariant -/

/-- The spec's invariant: the GPU surface bundle may be present only while
`has_master` is held. -/
def SurfaceOwnershipInv (c : WgpuContext) : Prop :=
  c.wgpu_state.isSome = true → c.drm_state.has_master = true

/-- Context states observable during a lifetime: any state returned by a
successful `new`, closed under `suspend`, `resume` and `present` with
arbitrary outcomes of the external calls (so error paths are included). -/
inductive ReachableCtx : WgpuContext → Prop
  | of_new (o : NewOracle) (c : WgpuContext) : new o = .ok c → ReachableCtx c
  | of_suspend (c : WgpuContext) (releaseOk : Bool) :
      ReachableCtx c → ReachableCtx (suspend c releaseOk).2
  | of_resume (c : WgpuContext) (o : ResumeOracle) :
      ReachableCtx c → ReachableCtx (resume c o).2
  | of_present (c : WgpuContext) (acquireOk : Bool) :
      ReachableCtx c → ReachableCtx (present c acquireOk).post

/-- After `suspend` the wgpu bundle is always absent, on success and
error paths alike. -/
theorem suspend_post_wgpu_none (c : WgpuContext) (releaseOk : Bool) :
    (suspend c releaseOk).2.wgpu_state = none := by
  obtain ⟨⟨dev, conn, mode, plane, hm⟩, ws⟩ := c
  cases hm <;> cases releaseOk <;> rfl

/-- `create_wgpu_resources` never touches the DRM state. -/
theorem create_wgpu_resources_drm (c : WgpuContext) (o : WgpuOracle) :
    (create_wgpu_resources c o).2.drm_state = c.drm_state := by
  obtain ⟨adOk, suOk, deOk, coOk, created⟩ := o
  cases adOk <;> cases suOk <;> cases deOk <;> cases coOk <;> rfl

/-- `present` returns the context unchanged (`&self` receiver). -/
theorem present_post_eq (c : WgpuContext) (acquireOk : Bool) :
    (present c acquireOk).post = c := by
  obtain ⟨⟨dev, conn, mode, plane, hm⟩, ws⟩ := c
  cases hm <;> cases ws <;> cases acquireOk <;> rfl

/-- A successful `new` yields a context holding master. -/
theorem new_ok_has_master (o : NewOracle) (c : WgpuContext) (h : new o = .ok c) :
    c.drm_state.has_master = true := by
  unfold new at h
  split at h
  · split at h
    · simp at h
    · split at h
      · simp at h
      · split at h
        · simp at h
        · next u c1 heq =>
          simp only [Except.ok.injEq] at h
          subst h
          have h2 := congrArg Prod.snd heq
          simp only at h2
          rw [← h2, create_wgpu_resources_drm]
  · simp at h

/-- `resume` preserves the surface-only-with-ownership invariant, on
success and error paths alike. -/
theorem resume_preserves_inv (c : WgpuContext) (o : ResumeOracle)
    (h : SurfaceOwnershipInv c) : SurfaceOwnershipInv (resume c o).2 := by
  obtain ⟨⟨dev, conn, mode, plane, hm⟩, ws⟩ := c
  obtain ⟨smOk, atOk, adOk, suOk, deOk, coOk, created⟩ := o
  cases hm <;> cases ws <;> cases smOk <;> cases atOk <;> cases adOk <;>
    cases suOk <;> cases deOk <;> cases coOk <;>
    simp_all [resume, setup_drm_master, create_wgpu_resources,
      SurfaceOwnershipInv]

/-- C2: at every observable point of the context's lifetime — after
construction and after every `suspend`, `resume` or `present`, succeeding
or erroring — the wgpu surface bundle is present only if `has_master`
is held. -/
theorem C2_surface_only_with_ownership (c : WgpuContext) (h : ReachableCtx c) :
    SurfaceOwnershipInv c := by
  induction h with
  | of_new o c hnew =>
    intro _
    exact new_ok_has_master o c hnew
  | of_suspend c releaseOk _ _ =>
    intro hs
    rw [suspend_post_wgpu_none] at hs
    simp at hs
  | of_resume c o _ ih =>
    exact resume_preserves_inv c o ih
  | of_present c acquireOk _ ih =>
    rw [present_post_eq]
    exact ih

/-- A fully successful construction oracle producing `activeContext`. -/
def okNewOracle : NewOracle :=
  { openOk := true, setMasterOk := true, atomicOk := true,
    connectors := [⟨5, true, [⟨1920, 1080, 60, false⟩]⟩],
    planes := [⟨7, [("type", 1)]⟩],
    wgpu := ⟨true, true, true, true, ⟨0, 1, 2, 3, 4⟩⟩,
    deviceFd := 3 }

/-- C2 witness: the invariant theorem applied at the concrete state built
by `okNewOracle`. -/
theorem C2_surface_only_with_ownership_witness :
    SurfaceOwnershipInv activeContext :=
  C2_surface_only_with_ownership activeContext
    (ReachableCtx.of_new okNewOracle activeContext rfl)

/-! ### Claim C6: suspend/resume idempotence -/

/-- C6: with a succeeding master release, one `suspend` reaches the
suspended observable state without erroring, and a second `suspend` —
whatever its oracle — returns `Ok` and the identical state; with
succeeding master/surface calls, one `resume` succeeds and a second
`resume` — whatever its oracle — returns `Ok` and the identical state. -/
theorem C6_suspend_resume_idempotent (c : WgpuContext) (o o₂ : ResumeOracle)
    (releaseOk₂ : Bool) :
    ((suspend c true).1 = .ok () ∧
     (suspend c true).2.wgpu_state = none ∧
     (suspend c true).2.drm_state.has_master = false ∧
     is_active (suspend c true).2 = false ∧
     suspend (suspend c true).2 releaseOk₂ = (.ok (), (suspend c true).2)) ∧
    (o.setMasterOk = true → o.atomicOk = true → o.wgpu.adapterOk = true →
     o.wgpu.surfaceOk = true → o.wgpu.deviceOk = true → o.wgpu.configOk = true →
      ((resume c o).1 = .ok () ∧
       (resume c o).2.drm_state.has_master = true ∧
       (resume c o).2.wgpu_state.isSome = true ∧
       is_active (resume c o).2 = true ∧
       resume (resume c o).2 o₂ = (.ok (), (resume c o).2))) := by
  obtain ⟨⟨dev, conn, mode, plane, hm⟩, ws⟩ := c
  obtain ⟨smOk, atOk, adOk, suOk, deOk, coOk, created⟩ := o
  constructor
  · cases hm <;>
      simp [suspend, destroy_wgpu_resources, is_active]
  · intro h1 h2 h3 h4 h5 h6
    subst h1; subst h2; subst h3; subst h4; subst h5; subst h6
    cases hm <;> cases ws <;>
      simp [resume, setup_drm_master, create_wgpu_resources, is_active]

/-- C6 witness: the idempotence theorem at the concrete active context
with all-success oracles. -/
theorem C6_suspend_resume_idempotent_witness :
    (resume activeContext ⟨true, true, ⟨true, true, true, true, ⟨0, 1, 2, 3, 4⟩⟩⟩).1
      = .ok () ∧
    suspend (suspend activeContext true).2 false
      = (.ok (), (suspend activeContext true).2) := by
  have h := C6_suspend_resume_idempotent activeContext
    ⟨true, true, ⟨true, true, true, true, ⟨0, 1, 2, 3, 4⟩⟩⟩
    ⟨true, true, ⟨true, true, true, true, ⟨0, 1, 2, 3, 4⟩⟩⟩ false
  exact ⟨(h.2 rfl rfl rfl rfl rfl rfl).1, h.1.2.2.2.2⟩

/-! ### Claim C7: present readiness checks -/

/-- C7: `present` fails with a `NotReady` error exactly when ownership or
the surface is absent; `is_active` is true exactly when ownership is held
and the surface is present; and the backend is reached (some backend call
is made) exactly when `is_active` is true. -/
theorem C7_present_notReady_iff (c : WgpuContext) (acquireOk : Bool) :
    (presentNotReady (present c acquireOk) = true ↔ is_active c = false) ∧
    (is_active c = true ↔
      (c.drm_state.has_master = true ∧ c.wgpu_state.isSome = true)) ∧
    ((present c acquireOk).backendCalls ≠ [] ↔ is_active c = true) := by
  obtain ⟨⟨dev, conn, mode, plane, hm⟩, ws⟩ := c
  cases hm <;> cases ws <;> cases acquireOk <;>
    simp [present, presentNotReady, PresentError.isNotReady, is_active]

/-! ### Claim C10: present does not mutate the context -/

/-- C10: `present` never mutates the context — whatever the outcome, the
post-state is the pre-state, so `has_master`, surface presence and
`is_active` are unchanged. -/
theorem C10_present_preserves_state (c : WgpuContext) (acquireOk : Bool) :
    (present c acquireOk).post = c ∧
    (present c acquireOk).post.drm_state.has_master = c.drm_state.has_master ∧
    (present c acquireOk).post.wgpu_state.isSome = c.wgpu_state.isSome ∧
    is_active (present c acquireOk).post = is_active c := by
  have hpost := present_post_eq c acquireOk
  exact ⟨hpost, by rw [hpost], by rw [hpost], by rw [hpost]⟩

/-! ## Input handling (`src/main.rs`) -/

/-- Linux input key codes used by `main.rs` (from `input_linux_sys`). -/
def KEY_ESC : Nat := 1
def KEY_LEFTCTRL : Nat := 29
def KEY_LEFTALT : Nat := 56
def KEY_F1 : Nat := 59
def KEY_F2 : Nat := 60
def KEY_F3 : Nat := 61
def KEY_F4 : Nat := 62
def KEY_F5 : Nat := 63
def KEY_F6 : Nat := 64
def KEY_F7 : Nat := 65
def KEY_F8 : Nat := 66
def KEY_F9 : Nat := 67
def KEY_RIGHTCTRL : Nat := 97
def KEY_RIGHTALT : Nat := 100

/-- `KeyMap::get_vt` (`src/main.rs` lines 39–60): the fixed
function-key → virtual-terminal mapping F1..F9 ↦ 1..9. -/
def keyMapGetVt (key : Nat) : Option Nat :=
  if key = KEY_F1 then some 1
  else if key = KEY_F2 then some 2
  else if key = KEY_F3 then some 3
  else if key = KEY_F4 then some 4
  else if key = KEY_F5 then some 5
  else if key = KEY_F6 then some 6
  else if key = KEY_F7 then some 7
  else if key = KEY_F8 then some 8
  else if key = KEY_F9 then some 9
  else none

/-- `colpetto::event::KeyState`. -/
inductive KeyState
  | pressed
  | released
deriving DecidableEq

/-- `ModifierState` (lines 62–97): the set of currently pressed keys
(the `HashSet<u32>` modelled as a `Finset`). -/
structure ModifierState where
  pressed_keys : Finset Nat
deriving DecidableEq

/-- `ModifierState::new`. -/
def ModifierState.new : ModifierState := ⟨∅⟩

/-- `ModifierState::update` (lines 73–82): insert on press, remove on
release. -/
def ModifierState.update (s : ModifierState) (key : Nat) (state : KeyState) :
    ModifierState :=
  match state with
  | .pressed => ⟨insert key s.pressed_keys⟩
  | .released => ⟨s.pressed_keys.erase key⟩

/-- `is_ctrl_pressed` (lines 84–87). -/
def ModifierState.is_ctrl_pressed (s : ModifierState) : Bool :=
  decide (KEY_LEFTCTRL ∈ s.pressed_keys) || decide (KEY_RIGHTCTRL ∈ s.pressed_keys)

/-- `is_alt_pressed` (lines 89–92). -/
def ModifierState.is_alt_pressed (s : ModifierState) : Bool :=
  decide (KEY_LEFTALT ∈ s.pressed_keys) || decide (KEY_RIGHTALT ∈ s.pressed_keys)

/-- `is_ctrl_alt_pressed` (lines 94–96). -/
def ModifierState.is_ctrl_alt_pressed (s : ModifierState) : Bool :=
  s.is_ctrl_pressed && s.is_alt_pressed

/-- The session-activation reset (line 163): on an inactive→active
transition the shared state is overwritten with `ModifierState::new()`. -/
def activationReset (_ : ModifierState) : ModifierState := ModifierState.new

/-- A stream of key events as delivered to the input task. -/
abbrev KeyEvent := Nat × KeyState

/-- Folding the per-event `update` calls over an event sequence, as the
input task does one event at a time. -/
def applyEvents (s : ModifierState) (es : List KeyEvent) : ModifierState :=
  es.foldl (fun acc e => acc.update e.1 e.2) s

/-- The last recorded state for key `k` in an event sequence, if any:
the reference notion "pressed but not yet released" is `some .pressed`. -/
def lastKeyState : List KeyEvent → Nat → Option KeyState
  | [], _ => none
  | (a, st) :: rest, k =>
    match lastKeyState rest k with
    | some st' => some st'
    | none => if a = k then some st else none

/-- Observable outcome of the input task handling one keyboard event
(`src/main.rs` lines 192–219): the updated modifier state, whether a
process exit was requested (ESC), whether a VT switch was requested and
to which target, and whether a mapped combo was dropped for lack of
session control. -/
structure InputStepOutput where
  modifiers : ModifierState
  exitRequested : Bool
  switchRequest : Option Nat
  comboDroppedNoControl : Bool
deriving DecidableEq

/-- One iteration of the input task on a keyboard key event: update the
modifier state first, then — only on a press — check ESC, then the
Ctrl+Alt combo against the updated state, then the function-key map, then
the locally mirrored `has_control` flag. -/
def inputStep (ms : ModifierState) (hasControl : Bool) (key : Nat)
    (state : KeyState) : InputStepOutput :=
  let ms1 := ms.update key state
  match state with
  | .released => ⟨ms1, false, none, false⟩
  | .pressed =>
    let exitReq := decide (key = KEY_ESC)
    if ms1.is_ctrl_alt_pressed then
      match keyMapGetVt key with
      | some vt =>
        if hasControl then ⟨ms1, exitReq, some vt, false⟩
        else ⟨ms1, exitReq, none, true⟩
      | none => ⟨ms1, exitReq, none, false⟩
    else ⟨ms1, exitReq, none, false⟩

/-! ### Claim C8: VT-switch combo gating -/

/-- C8: a VT switch to `vt` is requested exactly on a press of a key the
map sends to `vt` while Ctrl and Alt are both held (in the updated state)
and control is held; if Alt is not held no switch is ever requested; and a
mapped press with the combo held but control absent is dropped (flagged as
logged) without a switch request. -/
theorem C8_combo_gating (ms : ModifierState) (hasControl : Bool) (key : Nat)
    (state : KeyState) :
    (∀ vt, (inputStep ms hasControl key state).switchRequest = some vt ↔
      (state = .pressed ∧ keyMapGetVt key = some vt ∧
       ((ms.update key state).is_ctrl_alt_pressed = true) ∧ hasControl = true)) ∧
    ((ms.update key state).is_alt_pressed = false →
      (inputStep ms hasControl key state).switchRequest = none) ∧
    (state = .pressed → (ms.update key state).is_ctrl_alt_pressed = true →
     keyMapGetVt key ≠ none → hasControl = false →
      ((inputStep ms hasControl key state).switchRequest = none ∧
       (inputStep ms hasControl key state).comboDroppedNoControl = true)) := by
  refine ⟨?_, ?_, ?_⟩
  · intro vt
    cases state
    · simp only [inputStep]
      by_cases hcombo : (ms.update key .pressed).is_ctrl_alt_pressed
      · rw [if_pos hcombo]
        cases hmap : keyMapGetVt key with
        | none => simp [hmap]
        | some vt' =>
          cases hasControl <;> simp [hmap, hcombo]
      · rw [if_neg hcombo]
        simp only [Bool.not_eq_true] at hcombo
        simp [hcombo]
    · simp [inputStep]
  · intro halt
    cases state
    · simp only [inputStep]
      have hcombo : (ms.update key .pressed).is_ctrl_alt_pressed = false := by
        simp [ModifierState.is_ctrl_alt_pressed, halt]
      simp [hcombo]
    · simp [inputStep]
  · intro hst hcombo hmap hctl
    subst hst; subst hctl
    cases hvt : keyMapGetVt key with
    | none => exact absurd hvt hmap
    | some vt => simp [inputStep, hcombo, hvt]

/-- C8 witness: pressing F3 with left Ctrl and right Alt held and control
present requests a switch to VT 3; the same press without control is
dropped; and with only Ctrl held nothing is requested. -/
theorem C8_combo_gating_witness :
    (inputStep ⟨{KEY_LEFTCTRL, KEY_RIGHTALT}⟩ true KEY_F3 .pressed).switchRequest
      = some 3 ∧
    (inputStep ⟨{KEY_LEFTCTRL, KEY_RIGHTALT}⟩ false KEY_F3 .pressed).switchRequest
      = none ∧
    (inputStep ⟨{KEY_LEFTCTRL, KEY_RIGHTALT}⟩ false KEY_F3
      .pressed).comboDroppedNoControl = true ∧
    (inputStep ⟨{KEY_LEFTCTRL}⟩ true KEY_F3 .pressed).switchRequest = none := by
  refine ⟨?_, ?_, ?_, ?_⟩
  · exact ((C8_combo_gating ⟨{KEY_LEFTCTRL, KEY_RIGHTALT}⟩ true KEY_F3
      .pressed).1 3).mpr ⟨rfl, by decide, by decide, rfl⟩
  · exact ((C8_combo_gating ⟨{KEY_LEFTCTRL, KEY_RIGHTALT}⟩ false KEY_F3
      .pressed).2.2 rfl (by decide) (by decide) rfl).1
  · exact ((C8_combo_gating ⟨{KEY_LEFTCTRL, KEY_RIGHTALT}⟩ false KEY_F3
      .pressed).2.2 rfl (by decide) (by decide) rfl).2
  · exact (C8_combo_gating ⟨{KEY_LEFTCTRL}⟩ true KEY_F3 .pressed).2.1 (by decide)

/-! ### Claim C9: modifier tracking -/

/-- The held set after applying an event list on top of an arbitrary
start set: a key is held exactly when its last event was a press, or it
was held initially and has no event. -/
theorem mem_applyEvents (es : List KeyEvent) (s : Finset Nat) (k : Nat) :
    k ∈ (applyEvents ⟨s⟩ es).pressed_keys ↔
      (lastKeyState es k = some .pressed ∨
       (lastKeyState es k = none ∧ k ∈ s)) := by
  induction es generalizing s with
  | nil => simp [applyEvents, lastKeyState]
  | cons e rest ih =>
    obtain ⟨a, st⟩ := e
    have hstep : applyEvents ⟨s⟩ ((a, st) :: rest)
        = applyEvents (ModifierState.update ⟨s⟩ a st) rest := rfl
    rw [hstep]
    cases st with
    | pressed =>
      rw [show ModifierState.update ⟨s⟩ a .pressed = ⟨insert a s⟩ from rfl, ih]
      cases hrest : lastKeyState rest k with
      | some st' => simp [lastKeyState, hrest]
      | none =>
        by_cases hak : a = k
        · subst hak
          simp [lastKeyState, hrest]
        · have hka : ¬ k = a := fun h => hak h.symm
          have hcons : lastKeyState ((a, KeyState.pressed) :: rest) k = none := by
            simp [lastKeyState, hrest, hak]
          rw [hcons]
          simp [Finset.mem_insert, hka]
    | released =>
      rw [show ModifierState.update ⟨s⟩ a .released = ⟨s.erase a⟩ from rfl, ih]
      cases hrest : lastKeyState rest k with
      | some st' => simp [lastKeyState, hrest]
      | none =>
        by_cases hak : a = k
        · subst hak
          simp [lastKeyState, hrest]
        · have hka : ¬ k = a := fun h => hak h.symm
          have hcons : lastKeyState ((a, KeyState.released) :: rest) k = none := by
            simp [lastKeyState, hrest, hak]
          rw [hcons]
          simp [Finset.mem_erase, hka]

/-- C9: starting from the empty tracker, after any interleaving of
press/release events a key is held exactly when it has been pressed and
not released since (its last event is a press); the Ctrl and Alt queries
treat left and right variants as interchangeable (either one suffices);
and the activation-transition reset makes the held set empty. -/
theorem C9_modifier_tracking (es : List KeyEvent) (k : Nat) (s : ModifierState) :
    (k ∈ (applyEvents ModifierState.new es).pressed_keys ↔
      lastKeyState es k = some .pressed) ∧
    (s.is_ctrl_pressed = true ↔
      (KEY_LEFTCTRL ∈ s.pressed_keys ∨ KEY_RIGHTCTRL ∈ s.pressed_keys)) ∧
    (s.is_alt_pressed = true ↔
      (KEY_LEFTALT ∈ s.pressed_keys ∨ KEY_RIGHTALT ∈ s.pressed_keys)) ∧
    (activationReset s).pressed_keys = ∅ := by
  refine ⟨?_, ?_, ?_, rfl⟩
  · rw [show ModifierState.new = (⟨∅⟩ : ModifierState) from rfl,
      mem_applyEvents es ∅ k]
    simp
  · simp [ModifierState.is_ctrl_pressed]
  · simp [ModifierState.is_alt_pressed]

/-! ### Claim C4: the startup watchdog -/

/-- The bound of the watchdog task spawned at the top of `main`
(`src/main.rs` lines 103–106): `sleep(Duration::from_secs(10))`. -/
def watchdogDelaySecs : Nat := 10

/-- The exit status passed to `exit` by the watchdog task. -/
def watchdogExitStatus : Int := -1

/-- Abstract view of the process at a point in time, for stating what the
watchdog consults: whether the process is still running, and whether
startup/session negotiation has stalled.  The spawned task's body
(`sleep(10s); exit(-1)`) reads no program state at all, so only liveness
can matter to it. -/
structure ProcessSnapshot where
  alive : Bool
  startupStalled : Bool
deriving DecidableEq

/-- Whether the watchdog task terminates the process, as a function of
elapsed seconds and the process snapshot at that moment: modelled from
`src/main.rs` lines 103–106, the task fires as soon as the 10-second
sleep elapses, provided only that the process (and with it the spawned
task) is still alive; no other condition is checked. -/
def watchdogFires (elapsedSecs : Nat) (p : ProcessSnapshot) : Bool :=
  decide (watchdogDelaySecs ≤ elapsedSecs) && p.alive

/-- C4 (counterexample): a process that is alive and operating normally
(startup not stalled) 10 seconds after start is terminated by the
watchdog, contradicting the claim that the watchdog forces an exit only
when startup/session negotiation stalls. -/
theorem C4_counterexample :
    watchdogFires 10 ⟨true, false⟩ = true ∧
    (⟨true, false⟩ : ProcessSnapshot).startupStalled = false := by
  exact ⟨rfl, rfl⟩

/-- C4 (amended): the watchdog fires exactly when the 10-second bound has
elapsed and the process is still running, regardless of whether startup
has stalled; it is avoided only by process termination before the
bound. -/
theorem C4_watchdog_fires_iff_alive_at_bound (elapsedSecs : Nat)
    (p : ProcessSnapshot) :
    watchdogFires elapsedSecs p = true ↔
      (watchdogDelaySecs ≤ elapsedSecs ∧ p.alive = true) := by
  simp [watchdogFires]

end WgpuSession
